import Mathlib

/-!
# Verification of the Sensor-Watch `morsecalc` watch face

Shallow embedding of `movement/watch_faces/complication/morsecalc_face.c`:
a Morse-code RPN calculator face.  The segmented display is modelled as a
list of 10 characters; the display driver writes, the face code reads and
mutates an explicit session state.  IEEE doubles are idealised as exact
rationals (plus explicit NaN/±∞ constructors), with the C library calls
`floor(log(d)/log(10))` and `round` replaced by their exact counterparts
`Int.log 10` and `round` on `ℚ`; both agree with the C intent (`round`
rounds half away from zero, which for the nonnegative arguments occurring
here coincides with Lean's half-up `round`).
-/

namespace MorseCalc

/-- The 10-position segmented display, one `Char` per position. -/
abbrev Display := List Char

/-- Modelled from the spec: the display driver (`watch_display_character`)
writes one character at the given 0-indexed position of the 10-character
display surface. -/
def watch_display_character (disp : Display) (c : Char) (pos : Nat) : Display :=
  disp.set pos c

/-- Modelled from the spec: the display driver (`watch_display_string`)
writes the characters of a string at successive positions starting at the
given 0-indexed position. -/
def watch_display_string (disp : Display) (s : List Char) (pos : Nat) : Display :=
  match s with
  | [] => disp
  | c :: cs => watch_display_string (disp.set pos c) cs (pos + 1)

/-- The all-blank display (the renderers clear the row before drawing). -/
def blankDisplay : Display := List.replicate 10 ' '

/-- An IEEE double, idealised: NaN, the two infinities, or an exact
finite value. -/
inductive FloatVal where
  | nan : FloatVal
  | posinf : FloatVal
  | neginf : FloatVal
  | finite : ℚ → FloatVal
deriving DecidableEq

/-- Models C `'0' + n` for the nonnegative integer digit values produced by
`/` and `% 10` in the source (`'0'` is code point 48). -/
def digitChar (n : ℤ) : Char := Char.ofNat (48 + n.toNat)

/-- Models C `'0' + n` for small nonnegative counters (buffer index, stack
depth). -/
def natDigitChar (n : Nat) : Char := Char.ofNat (48 + n)

/-- The shared tail of `morsecalc_print_float` for finite nonzero values:
the C code falls through to this printing code after computing
`is_negative`, `digits`, `om` and `om_is_negative` (the latter an `int`
holding 0 or 1, exactly as in the source).  Faithful to the source, the
exponent-sign test is `om_is_negative < 0` (C line 75), and the
over/underflow branch tests `om_is_negative` for truth (nonzero). -/
def morsecalc_print_float_finite (disp : Display) (is_negative : Bool)
    (digits : ℤ) (om : ℤ) (om_is_negative : ℤ) : Display :=
  -- Print signs
  let disp := if is_negative then watch_display_character disp '-' 1
              else watch_display_character disp ' ' 1
  let disp := if om_is_negative < 0 then watch_display_character disp '-' 2
              else watch_display_character disp ' ' 2
  -- Print first 4 significant figures
  let disp := watch_display_character disp (digitChar ((digits / 1000) % 10)) 4
  let disp := watch_display_character disp (digitChar ((digits / 100) % 10)) 5
  let disp := watch_display_character disp (digitChar ((digits / 10) % 10)) 6
  let disp := watch_display_character disp (digitChar ((digits / 1) % 10)) 7
  -- Print exponent
  let om := if om_is_negative ≠ 0 then -om else om  -- make exponent positive for display
  if om ≤ 99 then
    let disp := watch_display_character disp (digitChar ((om / 10) % 10)) 8
    watch_display_character disp (digitChar ((om / 1) % 10)) 9
  else  -- over/underflow
    let disp := if om_is_negative ≠ 0 then watch_display_string disp "    uf".toList 4
                else watch_display_string disp "    of".toList 4
    if om < 9999 then  -- use main display to show order of magnitude
      let disp := watch_display_character disp (digitChar ((om / 1000) % 10)) 4
      let disp := watch_display_character disp (digitChar ((om / 100) % 10)) 5
      let disp := watch_display_character disp (digitChar ((om / 10) % 10)) 6
      watch_display_character disp (digitChar ((om / 1) % 10)) 7
    else disp

/-- `morsecalc_print_float`: display a float on screen. -/
def morsecalc_print_float (disp : Display) (d : FloatVal) : Display :=
  match d with
  | .nan => watch_display_string disp "   nan".toList 4
  | .posinf => watch_display_string disp "   inf".toList 4
  | .neginf => watch_display_string (watch_display_character disp '-' 1) "   inf".toList 4
  | .finite q =>
    if q = 0 then watch_display_string disp "     0".toList 4
    else
      -- Sign
      let is_negative : Bool := q < 0
      let q := if is_negative then -q else q
      -- Order of magnitude
      let om : ℤ := Int.log 10 q
      let om_is_negative : ℤ := if om < 0 then 1 else 0
      -- Get the first 4 significant figures
      let digits : ℤ := round (q * (10 : ℚ) ^ ((3 : ℤ) - om))
      if digits > 9999 then
        morsecalc_print_float_finite disp is_negative 1000 (om + 1) om_is_negative
      else
        morsecalc_print_float_finite disp is_negative digits om om_is_negative

/-- Modelled from the spec: the Morse symbol buffer (`mc_state_t`), an
ordered bounded sequence of dot/dash symbols; `b` is its current contents
(the in-progress character).  Its length plays the role of `bidx`. -/
structure MCState where
  b : List Char
deriving DecidableEq

/-- Modelled from the spec: `mc_reset` clears the symbol buffer to empty. -/
def mc_reset : MCState := ⟨[]⟩

/-- Modelled from the spec: `mc_input` pushes one dot/dash symbol onto the
symbol buffer; at capacity, further pushes are silently capped. -/
def mc_input (cap : Nat) (mc : MCState) (c : Char) : MCState :=
  if mc.b.length < cap then ⟨mc.b ++ [c]⟩ else mc

/-- Modelled from the spec: the external calculator state (`calc_state_t`)
as this core sees it: a stack of values and the current depth `s`. -/
structure CalcState where
  stack : List FloatVal
  s : Nat
deriving DecidableEq

/-- The session state (`morsecalc_state_t`): the token buffer (raw storage
of `MORSECALC_TOKEN_LEN` characters), the logical token length `idxt`, the
Morse symbol buffer and the calculator state. -/
structure MorsecalcState where
  token : List Char
  idxt : Nat
  mc : MCState
  cs : CalcState
deriving DecidableEq

/-- C-string contents of the token storage: the characters before the
first NUL terminator. -/
def cstr (l : List Char) : List Char := l.takeWhile (fun c => c ≠ '\x00')

/-- C `strlen` on the token storage. -/
def strlen (l : List Char) : Nat := (cstr l).length

/-- `morsecalc_reset_token`: clear the token buffer (`memset` the whole
storage to NUL and zero the logical length). -/
def morsecalc_reset_token (TOKEN_LEN : Nat) (mcs : MorsecalcState) : MorsecalcState :=
  { mcs with token := List.replicate TOKEN_LEN '\x00', idxt := 0 }

/-- `morsecalc_print_token`: print the current input token.  `dec` is the
external Morse decode table (`mc_dec`), mapping the symbol-buffer contents
to a character, NUL meaning "no match". -/
def morsecalc_print_token (dec : List Char → Char) (mcs : MorsecalcState)
    (disp : Display) : Display :=
  let disp := watch_display_string disp "          ".toList 0  -- clear display
  let c := dec mcs.mc.b
  let c := if c = '\x00' then ' ' else c
  let disp := watch_display_character disp c 0
  let disp := watch_display_character disp (natDigitChar mcs.mc.b.length) 3
  let nlen := strlen mcs.token
  let nprint := min nlen 6
  watch_display_string disp ((cstr mcs.token).drop (nlen - nprint)) (10 - nprint)

/-- The stack item selected by `morsecalc_print_stack`: the decoded digit
when the symbol buffer decodes to a numeral `'0'`–`'9'`, otherwise 0 (the
top of stack).  `'0'` is code point 48, so `c.toNat - 48` is C `c - '0'`. -/
def stack_sel_idx (dec : List Char → Char) (mcs : MorsecalcState) : Nat :=
  let c := dec mcs.mc.b
  if '0' ≤ c ∧ c ≤ '9' then c.toNat - 48 else 0

/-- `morsecalc_print_stack`: print the stack contents.  If the symbol
buffer decodes to a numeral, that stack item (counted from the top) is
selected, otherwise the top of stack.  Out-of-depth selections render
" empty"; in-depth selections read `stack[s-1-idx]` (modelled with a
default value, shown never to be used out of range). -/
def morsecalc_print_stack (dec : List Char → Char) (mcs : MorsecalcState)
    (disp : Display) : Display :=
  let disp := watch_display_string disp "          ".toList 0  -- clear display
  let idx : Nat := stack_sel_idx dec mcs
  let disp :=
    if mcs.cs.s ≤ idx then watch_display_string disp " empty".toList 4
    else morsecalc_print_float disp (mcs.cs.stack.getD (mcs.cs.s - 1 - idx) (.finite 0))
  let disp := watch_display_character disp (natDigitChar idx) 0
  watch_display_character disp (natDigitChar mcs.cs.s) 3

/-- The error report at the end of `morsecalc_input`: the `switch(status)`
mapping calculator status codes to display messages. -/
def morsecalc_status_display (status : ℤ) (disp : Display) : Display :=
  if status = 0 then disp  -- success
  else if status = -1 then watch_display_string disp "cmderr".toList 4  -- unrecognized command
  else if status = -2 then watch_display_string disp "stkerr".toList 4  -- bad stack size
  else watch_display_string disp "   err".toList 4  -- other error

/-- The body of `morsecalc_input` before the final status switch: processes
one input symbol `c` (dot `'.'`, dash `'-'`, or complete `'x'`), returning
the new session state, the display as rendered by the branch taken, and the
local `status` variable (0 unless a token was submitted).  `calcf` is the
external calculator (`calc_input`): it receives the calculator state and
the token C-string and returns the updated state and a status code. -/
def morsecalc_input_core (dec : List Char → Char)
    (calcf : CalcState → List Char → CalcState × ℤ)
    (TOKEN_LEN MC_CAP : Nat) (mcs : MorsecalcState) (c : Char)
    (disp : Display) : MorsecalcState × Display × ℤ :=
  if c ≠ 'x' then  -- dot or dash received
    let mcs := { mcs with mc := mc_input MC_CAP mcs.mc c }
    (mcs, morsecalc_print_token dec mcs disp, 0)
  else  -- Morse code character finished
    let d := dec mcs.mc.b
    let mcs := { mcs with mc := mc_reset }
    if d = '\x00' then  -- invalid character, do nothing
      (mcs, morsecalc_print_token dec mcs disp, 0)
    else if d = ' ' then  -- submit token to calculator
      let r := calcf mcs.cs (cstr mcs.token)
      let mcs := { mcs with cs := r.1 }
      let mcs := morsecalc_reset_token TOKEN_LEN mcs
      (mcs, morsecalc_print_stack dec mcs disp, r.2)
    else if d = '(' then  -- erase previous character in token
      let mcs := if 0 < mcs.idxt then
          { mcs with idxt := mcs.idxt - 1, token := mcs.token.set (mcs.idxt - 1) '\x00' }
        else mcs
      (mcs, morsecalc_print_token dec mcs disp, 0)
    else if d = 'S' then  -- erase entire token without submitting
      let mcs := morsecalc_reset_token TOKEN_LEN mcs
      (mcs, morsecalc_print_stack dec mcs disp, 0)
    else  -- add character to token
      if mcs.idxt < TOKEN_LEN - 1 then
        let mcs := { mcs with token := mcs.token.set mcs.idxt d, idxt := mcs.idxt + 1 }
        (mcs, morsecalc_print_token dec mcs disp, 0)
      else (mcs, watch_display_string disp "  full".toList 4, 0)

/-- `morsecalc_input`: one input symbol processed end to end, the error
report appended after the branch switch. -/
def morsecalc_input (dec : List Char → Char)
    (calcf : CalcState → List Char → CalcState × ℤ)
    (TOKEN_LEN MC_CAP : Nat) (mcs : MorsecalcState) (c : Char)
    (disp : Display) : MorsecalcState × Display :=
  let r := morsecalc_input_core dec calcf TOKEN_LEN MC_CAP mcs c disp
  (r.1, morsecalc_status_display r.2.2 r.2.1)

/-- `morsecalc_face_activate`: the activate lifecycle hook resets the Morse
symbol buffer and renders the stack view. -/
def morsecalc_face_activate (dec : List Char → Char) (mcs : MorsecalcState)
    (disp : Display) : MorsecalcState × Display :=
  let mcs := { mcs with mc := mc_reset }
  (mcs, morsecalc_print_stack dec mcs disp)

/-- A constant Morse decode table, for concrete instantiations. -/
def decConst (c : Char) : List Char → Char := fun _ => c

/-- A calculator that leaves its state unchanged and returns a fixed
status code, for concrete instantiations. -/
def calcConst (status : ℤ) : CalcState → List Char → CalcState × ℤ :=
  fun cs _ => (cs, status)

/-- A session state holding the one-character token "1"
(token storage of length 2) and a nonempty symbol buffer. -/
def stTok1 : MorsecalcState :=
  { token := ['1', '\x00'], idxt := 1, mc := ⟨['.']⟩, cs := { stack := [], s := 0 } }

/-- A session state whose token buffer is at capacity for
`MORSECALC_TOKEN_LEN = 3`: two characters plus the reserved terminator. -/
def stFull : MorsecalcState :=
  { token := ['a', 'b', '\x00'], idxt := 2, mc := ⟨[]⟩, cs := { stack := [], s := 0 } }

/-- A session state with a two-item calculator stack. -/
def stTwo : MorsecalcState :=
  { token := ['\x00'], idxt := 0, mc := ⟨[]⟩,
    cs := { stack := [.finite 0, .finite 0], s := 2 } }

/-! ## Theorems -/

/-- `Int.log 10` is characterised by the two power bounds. -/
theorem log10_eq {q : ℚ} {z : ℤ} (hq : 0 < q)
    (h1 : (10:ℚ) ^ z ≤ q) (h2 : q < (10:ℚ) ^ (z + 1)) : Int.log 10 q = z := by
  have hb : 1 < (10:ℕ) := by norm_num
  have c1 : z ≤ Int.log 10 q := by
    rw [← Int.zpow_le_iff_le_log hb hq]; push_cast; exact h1
  have c2 : Int.log 10 q < z + 1 := by
    rw [← Int.lt_zpow_iff_log_lt hb hq]; push_cast; exact h2
  omega

/-- Reduction of the formatter on a positive finite value, given its order
of magnitude and rounded significand. -/
theorem print_float_pos (disp : Display) (q : ℚ) (hq : 0 < q) (e D : ℤ)
    (hom : Int.log 10 q = e) (hD : round (q * (10:ℚ) ^ ((3:ℤ) - e)) = D) :
    morsecalc_print_float disp (.finite q) =
      if D > 9999 then
        morsecalc_print_float_finite disp false 1000 (e + 1) (if e < 0 then 1 else 0)
      else
        morsecalc_print_float_finite disp false D e (if e < 0 then 1 else 0) := by
  have h0 : ¬(q = 0) := hq.ne'
  have hneg : ¬(q < 0) := hq.not_lt
  simp only [morsecalc_print_float, h0, if_false, decide_eq_true_eq, hneg, decide_False,
    Bool.false_eq_true, hom, hD]

/-- Reduction of the formatter on a negative finite value, given the order
of magnitude and rounded significand of its absolute value. -/
theorem print_float_neg (disp : Display) (q : ℚ) (hq : q < 0) (e D : ℤ)
    (hom : Int.log 10 (-q) = e) (hD : round ((-q) * (10:ℚ) ^ ((3:ℤ) - e)) = D) :
    morsecalc_print_float disp (.finite q) =
      if D > 9999 then
        morsecalc_print_float_finite disp true 1000 (e + 1) (if e < 0 then 1 else 0)
      else
        morsecalc_print_float_finite disp true D e (if e < 0 then 1 else 0) := by
  have h0 : ¬(q = 0) := hq.ne
  simp only [morsecalc_print_float, h0, if_false, decide_eq_true_eq, hq, decide_True,
    if_true, hom, hD]

/-- Claim C9: the formatter renders each special value as its fixed
literal — zero as the blank-padded "0", NaN as "nan", positive infinity as
"inf", and negative infinity as "inf" preceded by a '-' sign glyph in its
own leading position (display position 1, the value-sign position). -/
theorem C9_special_value_literals :
    morsecalc_print_float blankDisplay (.finite 0) =
      [' ', ' ', ' ', ' ', ' ', ' ', ' ', ' ', ' ', '0'] ∧
    morsecalc_print_float blankDisplay .nan =
      [' ', ' ', ' ', ' ', ' ', ' ', ' ', 'n', 'a', 'n'] ∧
    morsecalc_print_float blankDisplay .posinf =
      [' ', ' ', ' ', ' ', ' ', ' ', ' ', 'i', 'n', 'f'] ∧
    morsecalc_print_float blankDisplay .neginf =
      [' ', '-', ' ', ' ', ' ', ' ', ' ', 'i', 'n', 'f'] := by
  refine ⟨?_, rfl, rfl, rfl⟩
  decide

/-- Claim C1 (code bug): full evaluation of the formatter at the spec's
own example d = -0.00271.  The order of magnitude is om = -3 < 0, yet the
rendered display holds ' ' (blank) at position 2, the exponent-sign
position, where the claim requires '-': the C source line
`if(om_is_negative < 0)` compares the 0/1-valued `om_is_negative` with 0,
which is always false (the intent, used correctly three lines below as a
truth test, was `if(om_is_negative)`).  Value sign, digits 2710 and
exponent 03 render as claimed. -/
theorem C1_exponent_sign_never_rendered :
    Int.log 10 ((271:ℚ)/100000) = -3 ∧
    morsecalc_print_float blankDisplay (.finite ((-271:ℚ)/100000)) =
      [' ', '-', ' ', ' ', '2', '7', '1', '0', '0', '3'] := by
  have habs : -((-271:ℚ)/100000) = (271:ℚ)/100000 := by norm_num
  have hom : Int.log 10 ((271:ℚ)/100000) = -3 := by
    apply log10_eq (by norm_num) <;> norm_num
  refine ⟨hom, ?_⟩
  rw [print_float_neg _ _ (by norm_num) (-3) 2710]
  · decide
  · rw [habs]; exact hom
  · rw [habs, round_eq]; norm_num

/-- Claim C2 (amended): re-activation resets the symbol buffer to empty
and renders the stack view; the token buffer (contents and logical length)
and the calculator stack are left unchanged. -/
theorem C2_activate_resets_symbol_buffer_only (dec : List Char → Char)
    (mcs : MorsecalcState) (disp : Display) :
    (morsecalc_face_activate dec mcs disp).1 = { mcs with mc := mc_reset } ∧
    (morsecalc_face_activate dec mcs disp).2 =
      morsecalc_print_stack dec { mcs with mc := mc_reset } disp :=
  ⟨rfl, rfl⟩

/-- Claim C2 counterexample: activating with the one-character token "1"
pending leaves the token buffer untouched — neither its storage nor its
logical length is reset to empty, contrary to the claim that the token
buffer is cleared on re-activation. -/
theorem C2_counterexample_token_survives_activate :
    (morsecalc_face_activate (decConst '\x00') stTok1 blankDisplay).1.token ≠
      List.replicate 2 '\x00' ∧
    (morsecalc_face_activate (decConst '\x00') stTok1 blankDisplay).1.idxt ≠ 0 := by
  constructor <;> decide

/-- Claim C3: if rounding |d| to four significant decimal digits yields a
value greater than 9999, the formatter resets the digit value to 1000 and
increments the order of magnitude by one before falling through to the
shared rendering code (so a five-digit 10000 is never rendered; the digit
field has only four positions). -/
theorem C3_rounding_carry (disp : Display) (q : ℚ) (hq : q ≠ 0) (e : ℤ)
    (hom : Int.log 10 |q| = e)
    (hbig : 9999 < round (|q| * (10:ℚ) ^ ((3:ℤ) - e))) :
    morsecalc_print_float disp (.finite q) =
      morsecalc_print_float_finite disp (decide (q < 0)) 1000 (e + 1)
        (if e < 0 then 1 else 0) := by
  rcases hq.lt_or_lt with hneg | hpos
  · rw [abs_of_neg hneg] at hom hbig
    rw [print_float_neg disp q hneg e _ hom rfl, if_pos hbig]
    simp [hneg]
  · rw [abs_of_pos hpos] at hom hbig
    rw [print_float_pos disp q hpos e _ hom rfl, if_pos hbig]
    simp [hpos.not_lt]

/-- Witness for C3 at the spec's example d = 9.9996: the four-digit
rounding of 9.9996 is 10000 > 9999, and the value renders as digits 1000
with exponent 01 (the exponent bumped from 00 by one). -/
theorem C3_rounding_carry_witness :
    morsecalc_print_float blankDisplay (.finite ((99996:ℚ)/10000)) =
      [' ', ' ', ' ', ' ', '1', '0', '0', '0', '0', '1'] := by
  rw [C3_rounding_carry blankDisplay _ (by norm_num) 0 ?hom ?hbig]
  · have hfalse : ¬((99996:ℚ)/10000 < 0) := by norm_num
    simp only [hfalse, decide_False]
    decide
  case hom => rw [abs_of_pos (by norm_num)]; apply log10_eq (by norm_num) <;> norm_num
  case hbig => rw [abs_of_pos (by norm_num), round_eq]; norm_num

/-- Rendering of the shared tail in the underflow branch
(`om_is_negative = 1`, displayed exponent `-om` over 99 but under 9999):
the digit field shows the exponent's own digits and positions 8–9 show
"uf"; the significand `digits` is never shown. -/
theorem finite_uf (sgn : Bool) (digits om : ℤ) (h1 : ¬(-om ≤ 99)) (h2 : -om < 9999) :
    morsecalc_print_float_finite blankDisplay sgn digits om 1 =
      [' ', if sgn then '-' else ' ', ' ', ' ',
        digitChar (-om / 1000 % 10), digitChar (-om / 100 % 10),
        digitChar (-om / 10 % 10), digitChar (-om / 1 % 10), 'u', 'f'] := by
  simp only [morsecalc_print_float_finite]
  norm_num [h1, h2, watch_display_character, watch_display_string, blankDisplay]
  cases sgn <;> rfl

/-- Rendering of the shared tail in the overflow branch
(`om_is_negative = 0`, displayed exponent `om` over 99 but under 9999):
the digit field shows the exponent's own digits and positions 8–9 show
"of"; the significand `digits` is never shown. -/
theorem finite_of (sgn : Bool) (digits om : ℤ) (h1 : ¬(om ≤ 99)) (h2 : om < 9999) :
    morsecalc_print_float_finite blankDisplay sgn digits om 0 =
      [' ', if sgn then '-' else ' ', ' ', ' ',
        digitChar (om / 1000 % 10), digitChar (om / 100 % 10),
        digitChar (om / 10 % 10), digitChar (om / 1 % 10), 'o', 'f'] := by
  simp only [morsecalc_print_float_finite]
  norm_num [h1, h2, watch_display_character, watch_display_string, blankDisplay]
  cases sgn <;> rfl

/-- The shared tail in either over/underflow regime, with the exponent
given as `e2` (post-carry) and the sign flag computed from `e`
(pre-carry), the two agreeing in sign. -/
theorem finite_render_overflow (sgn : Bool) (digits e2 e : ℤ)
    (hiff : e2 < 0 ↔ e < 0) (h99 : 99 < |e2|) (h9999 : |e2| < 9999) :
    morsecalc_print_float_finite blankDisplay sgn digits e2 (if e < 0 then 1 else 0) =
      [' ', if sgn then '-' else ' ', ' ', ' ',
        digitChar (|e2| / 1000 % 10), digitChar (|e2| / 100 % 10),
        digitChar (|e2| / 10 % 10), digitChar (|e2| / 1 % 10),
        if e < 0 then 'u' else 'o', 'f'] := by
  by_cases hes : e < 0
  · have h2 : e2 < 0 := hiff.mpr hes
    have habs : |e2| = -e2 := abs_of_neg h2
    rw [habs] at h99 h9999 ⊢
    simp only [if_pos hes]
    exact finite_uf sgn digits e2 (by omega) h9999
  · have h2 : ¬(e2 < 0) := fun h => hes (hiff.mp h)
    have habs : |e2| = e2 := abs_of_nonneg (by omega)
    rw [habs] at h99 h9999 ⊢
    simp only [if_neg hes]
    exact finite_of sgn digits e2 (by omega) h9999

/-- Claim C4 (amended): for every finite nonzero value whose order of
magnitude *after the rounding-carry adjustment* (`eadj`) has absolute
value exceeding 99, the formatter displays "uf" (exponent negative) or
"of" (exponent positive) at positions 8–9, and — whenever that absolute
exponent fits the test `om < 9999` of the source, which for IEEE doubles
(|om| ≤ 308) coincides with the claim's "less than 10000" — the raw
exponent's four decimal digits in the main digit field in place of the
significant figures. -/
theorem C4_overflow_underflow (q : ℚ) (hq : q ≠ 0) (e D eadj : ℤ)
    (hom : Int.log 10 |q| = e)
    (hD : round (|q| * (10:ℚ) ^ ((3:ℤ) - e)) = D)
    (headj : eadj = if 9999 < D then e + 1 else e)
    (h99 : 99 < |eadj|) (h9999 : |eadj| < 9999) :
    morsecalc_print_float blankDisplay (.finite q) =
      [' ', if q < 0 then '-' else ' ', ' ', ' ',
        digitChar (|eadj| / 1000 % 10), digitChar (|eadj| / 100 % 10),
        digitChar (|eadj| / 10 % 10), digitChar (|eadj| / 1 % 10),
        if e < 0 then 'u' else 'o', 'f'] := by
  rcases hq.lt_or_lt with hneg | hpos
  · rw [abs_of_neg hneg] at hom hD
    rw [print_float_neg blankDisplay q hneg e D hom hD]
    by_cases hcarry : 9999 < D
    · have he : eadj = e + 1 := by rw [headj, if_pos hcarry]
      subst he
      have hiff : e + 1 < 0 ↔ e < 0 := by
        rcases abs_cases (e + 1) with ⟨h, h0⟩ | ⟨h, h0⟩ <;> rw [h] at h99 <;> omega
      rw [if_pos (show D > 9999 from hcarry),
        finite_render_overflow true 1000 (e + 1) e hiff h99 h9999]
      simp [hneg]
    · have he : eadj = e := by rw [headj, if_neg hcarry]
      subst he
      rw [if_neg (show ¬(D > 9999) from hcarry),
        finite_render_overflow true D eadj eadj Iff.rfl h99 h9999]
      simp [hneg]
  · rw [abs_of_pos hpos] at hom hD
    rw [print_float_pos blankDisplay q hpos e D hom hD]
    by_cases hcarry : 9999 < D
    · have he : eadj = e + 1 := by rw [headj, if_pos hcarry]
      subst he
      have hiff : e + 1 < 0 ↔ e < 0 := by
        rcases abs_cases (e + 1) with ⟨h, h0⟩ | ⟨h, h0⟩ <;> rw [h] at h99 <;> omega
      rw [if_pos (show D > 9999 from hcarry),
        finite_render_overflow false 1000 (e + 1) e hiff h99 h9999]
      simp [hpos.not_lt]
    · have he : eadj = e := by rw [headj, if_neg hcarry]
      subst he
      rw [if_neg (show ¬(D > 9999) from hcarry),
        finite_render_overflow false D eadj eadj Iff.rfl h99 h9999]
      simp [hpos.not_lt]

/-- Claim C4 counterexample: d = 9.9996e-100 has order of magnitude
om = floor(log10 |d|) = -100, of magnitude exceeding 99 and negative, so
the claim as stated requires the "uf" literal; but the four-digit
rounding carries (10000), the code bumps om to -99, and the value renders
through the normal path with digits 1000 and exponent 99 — no "uf"
anywhere on the display. -/
theorem C4_counterexample_carry_into_range :
    Int.log 10 |(99996:ℚ) / 10 ^ 104| = -100 ∧
    morsecalc_print_float blankDisplay (.finite ((99996:ℚ) / 10 ^ 104)) =
      [' ', ' ', ' ', ' ', '1', '0', '0', '0', '9', '9'] := by
  have hpos : (0:ℚ) < (99996:ℚ) / 10 ^ 104 := by positivity
  have hom : Int.log 10 ((99996:ℚ) / 10 ^ 104) = -100 := by
    apply log10_eq hpos <;> norm_num
  refine ⟨by rw [abs_of_pos hpos]; exact hom, ?_⟩
  rw [print_float_pos blankDisplay _ hpos (-100) 10000 hom (by rw [round_eq]; norm_num),
    if_pos (by norm_num)]
  norm_num
  decide

/-- Witness for the amended C4 at d = 1e-200: no rounding carry, the
adjusted order of magnitude is -200 (negative, magnitude over 99 and
under 9999), and the display shows the exponent digits 0200 in the digit
field with "uf" at positions 8–9. -/
theorem C4_overflow_underflow_witness :
    morsecalc_print_float blankDisplay (.finite ((1:ℚ) / 10 ^ 200)) =
      [' ', ' ', ' ', ' ', '0', '2', '0', '0', 'u', 'f'] := by
  have hpos : (0:ℚ) < (1:ℚ) / 10 ^ 200 := by positivity
  rw [C4_overflow_underflow ((1:ℚ) / 10 ^ 200) hpos.ne' (-200) 1000 (-200) ?hom ?hD
    ?headj ?h99 ?h9999]
  · simp only [hpos.not_lt, if_false]
    norm_num
    decide
  case hom => rw [abs_of_pos hpos]; apply log10_eq hpos <;> norm_num
  case hD => rw [abs_of_pos hpos, round_eq]; norm_num
  case headj => norm_num
  case h99 => norm_num
  case h9999 => norm_num

/-- Claim C5: on a completed Morse character decoding to space (submit),
the dispatcher forwards the token C-string to the external calculator,
then clears the token buffer (storage NUL-filled, logical length 0) and
renders the stack view — for every calculator `calcf`, hence regardless
of the status code returned (the status only feeds the error overlay
applied on top of the stack view). -/
theorem C5_submit_clears_token (dec : List Char → Char)
    (calcf : CalcState → List Char → CalcState × ℤ) (TOKEN_LEN MC_CAP : Nat)
    (mcs : MorsecalcState) (disp : Display) (h : dec mcs.mc.b = ' ') :
    morsecalc_input dec calcf TOKEN_LEN MC_CAP mcs 'x' disp =
      ({ token := List.replicate TOKEN_LEN '\x00', idxt := 0, mc := mc_reset,
         cs := (calcf mcs.cs (cstr mcs.token)).1 },
       morsecalc_status_display (calcf mcs.cs (cstr mcs.token)).2
         (morsecalc_print_stack dec
           { token := List.replicate TOKEN_LEN '\x00', idxt := 0, mc := mc_reset,
             cs := (calcf mcs.cs (cstr mcs.token)).1 } disp)) := by
  simp [morsecalc_input, morsecalc_input_core, morsecalc_reset_token, h]

/-- Witness for C5: a concrete submit with a failing calculator
(status -2).  The token "1" is cleared even though the calculator
reported an error, the stack view (" empty" for the empty stack) is
rendered and the error literal overlaid. -/
theorem C5_submit_clears_token_witness :
    morsecalc_input (decConst ' ') (calcConst (-2)) 2 5 stTok1 'x' blankDisplay =
      ({ token := ['\x00', '\x00'], idxt := 0, mc := mc_reset,
         cs := { stack := [], s := 0 } },
       ['0', ' ', ' ', '0', 's', 't', 'k', 'e', 'r', 'r']) := by
  rw [C5_submit_clears_token (decConst ' ') (calcConst (-2)) 2 5 stTok1 blankDisplay rfl]
  decide

/-- Claim C6: the status switch at the end of `morsecalc_input` maps each
calculator status code to exactly one display outcome: 0 leaves the
display untouched (no error), -1 writes the literal "cmderr", -2 writes
the literal "stkerr", and every other nonzero status writes the
blank-padded generic literal "err", each across display positions 4–9. -/
theorem C6_status_code_mapping (status : ℤ) (disp : Display) :
    (status = 0 → morsecalc_status_display status disp = disp) ∧
    (status = -1 → morsecalc_status_display status disp =
      watch_display_string disp "cmderr".toList 4) ∧
    (status = -2 → morsecalc_status_display status disp =
      watch_display_string disp "stkerr".toList 4) ∧
    (status ≠ 0 → status ≠ -1 → status ≠ -2 → morsecalc_status_display status disp =
      watch_display_string disp "   err".toList 4) := by
  refine ⟨?_, ?_, ?_, ?_⟩ <;> intros <;> simp_all [morsecalc_status_display]

/-- Witness for C6: the four mapping cases evaluated on the blank display
at statuses 0, -1, -2 and 7. -/
theorem C6_status_code_mapping_witness :
    morsecalc_status_display 0 blankDisplay = blankDisplay ∧
    morsecalc_status_display (-1) blankDisplay =
      [' ', ' ', ' ', ' ', 'c', 'm', 'd', 'e', 'r', 'r'] ∧
    morsecalc_status_display (-2) blankDisplay =
      [' ', ' ', ' ', ' ', 's', 't', 'k', 'e', 'r', 'r'] ∧
    morsecalc_status_display 7 blankDisplay =
      [' ', ' ', ' ', ' ', ' ', ' ', ' ', 'e', 'r', 'r'] := by
  refine ⟨(C6_status_code_mapping 0 blankDisplay).1 rfl, ?_, ?_, ?_⟩
  · rw [(C6_status_code_mapping (-1) blankDisplay).2.1 rfl]; decide
  · rw [(C6_status_code_mapping (-2) blankDisplay).2.2.1 rfl]; decide
  · rw [(C6_status_code_mapping 7 blankDisplay).2.2.2 (by decide) (by decide) (by decide)]
    decide

/-- Claim C7: when the token buffer is at capacity (logical length equals
`MORSECALC_TOKEN_LEN - 1`, reserving the terminator), an append triggered
by a completed Morse character (any decode other than NUL, space, '(' and
'S') leaves the token storage and logical length unchanged — the input
character is dropped — and writes the literal "  full" at positions 4–9;
only the symbol buffer is reset, as after every completed character. -/
theorem C7_token_full_drops_input (dec : List Char → Char)
    (calcf : CalcState → List Char → CalcState × ℤ) (TOKEN_LEN MC_CAP : Nat)
    (mcs : MorsecalcState) (disp : Display)
    (hd0 : dec mcs.mc.b ≠ '\x00') (hd1 : dec mcs.mc.b ≠ ' ')
    (hd2 : dec mcs.mc.b ≠ '(') (hd3 : dec mcs.mc.b ≠ 'S')
    (hfull : mcs.idxt = TOKEN_LEN - 1) :
    morsecalc_input dec calcf TOKEN_LEN MC_CAP mcs 'x' disp =
      ({ mcs with mc := mc_reset }, watch_display_string disp "  full".toList 4) := by
  simp [morsecalc_input, morsecalc_input_core, morsecalc_status_display,
    hd0, hd1, hd2, hd3, hfull]

/-- Witness for C7: with `MORSECALC_TOKEN_LEN = 3` and the two-character
token "ab" at capacity, a completed character decoding to 'e' is dropped:
token storage and logical length survive unchanged and the display shows
"  full". -/
theorem C7_token_full_drops_input_witness :
    morsecalc_input (decConst 'e') (calcConst 0) 3 5 stFull 'x' blankDisplay =
      ({ token := ['a', 'b', '\x00'], idxt := 2, mc := mc_reset,
         cs := { stack := [], s := 0 } },
       [' ', ' ', ' ', ' ', ' ', ' ', 'f', 'u', 'l', 'l']) := by
  rw [C7_token_full_drops_input (decConst 'e') (calcConst 0) 3 5 stFull blankDisplay
    (by decide) (by decide) (by decide) (by decide) rfl]
  decide

/-- Claim C8: the stack-view renderer computes the selected index
`stack_sel_idx` (the decoded digit 0–9 if the decode is a digit, else 0);
whenever the calculator invariant `s ≤ stack.length` holds, an index at
or beyond the depth `s` renders " empty" without reading any stack item
(the output is the same for every stack contents of that depth), and an
index below `s` reads exactly the in-range item `stack[s-1-idx]`. -/
theorem C8_stack_access_in_bounds (dec : List Char → Char) (mcs : MorsecalcState)
    (disp : Display) (hs : mcs.cs.s ≤ mcs.cs.stack.length) :
    (stack_sel_idx dec mcs < mcs.cs.s →
      ∃ hlt : mcs.cs.s - 1 - stack_sel_idx dec mcs < mcs.cs.stack.length,
        morsecalc_print_stack dec mcs disp =
          watch_display_character
            (watch_display_character
              (morsecalc_print_float (watch_display_string disp "          ".toList 0)
                (mcs.cs.stack.get ⟨mcs.cs.s - 1 - stack_sel_idx dec mcs, hlt⟩))
              (natDigitChar (stack_sel_idx dec mcs)) 0)
            (natDigitChar mcs.cs.s) 3) ∧
    (mcs.cs.s ≤ stack_sel_idx dec mcs →
      (morsecalc_print_stack dec mcs disp =
        watch_display_character
          (watch_display_character
            (watch_display_string (watch_display_string disp "          ".toList 0)
              " empty".toList 4)
            (natDigitChar (stack_sel_idx dec mcs)) 0)
          (natDigitChar mcs.cs.s) 3) ∧
      ∀ stack2 : List FloatVal,
        morsecalc_print_stack dec { mcs with cs := { mcs.cs with stack := stack2 } } disp =
          morsecalc_print_stack dec mcs disp) := by
  constructor
  · intro hlt
    have hbound : mcs.cs.s - 1 - stack_sel_idx dec mcs < mcs.cs.stack.length := by omega
    refine ⟨hbound, ?_⟩
    rw [morsecalc_print_stack, if_neg (by omega)]
    rw [List.getD_eq_getElem _ _ hbound]
    rfl
  · intro hge
    constructor
    · rw [morsecalc_print_stack, if_pos hge]
    · intro stack2
      have h1 : stack_sel_idx dec { mcs with cs := { mcs.cs with stack := stack2 } } =
          stack_sel_idx dec mcs := rfl
      rw [morsecalc_print_stack, morsecalc_print_stack, h1]
      rw [if_pos (by simpa using hge), if_pos hge]

/-- Witness for C8: decode '1' over a two-item stack selects index 1 < 2,
reading exactly `stack[2-1-1] = stack[0]` (the value 0, rendered by the
formatter as the zero literal), with index and depth in the corners. -/
theorem C8_stack_access_in_bounds_witness :
    morsecalc_print_stack (decConst '1') stTwo blankDisplay =
      ['1', ' ', ' ', '2', ' ', ' ', ' ', ' ', ' ', '0'] := by
  obtain ⟨hlt, heq⟩ :=
    (C8_stack_access_in_bounds (decConst '1') stTwo blankDisplay (by decide)).1 (by decide)
  rw [heq]
  rfl

/-- Claim C10: the dispatcher's final display is always the status overlay
applied to the branch rendering, and the status feeding that overlay is
nonzero — i.e. an error literal ("cmderr"/"stkerr"/"err", per the C6
mapping) is written — if and only if the event is a completed Morse
character ('x') whose decode is the submit character (space) and the
external calculator returned a nonzero status.  Dot and dash symbols,
invalid decodes, delete, clear and append (including a full buffer) all
carry status 0 and never trigger an error literal. -/
theorem C10_error_literal_iff_failed_submit (dec : List Char → Char)
    (calcf : CalcState → List Char → CalcState × ℤ) (TOKEN_LEN MC_CAP : Nat)
    (mcs : MorsecalcState) (c : Char) (disp : Display) :
    morsecalc_input dec calcf TOKEN_LEN MC_CAP mcs c disp =
      ((morsecalc_input_core dec calcf TOKEN_LEN MC_CAP mcs c disp).1,
        morsecalc_status_display
          (morsecalc_input_core dec calcf TOKEN_LEN MC_CAP mcs c disp).2.2
          (morsecalc_input_core dec calcf TOKEN_LEN MC_CAP mcs c disp).2.1) ∧
    ((morsecalc_input_core dec calcf TOKEN_LEN MC_CAP mcs c disp).2.2 ≠ 0 ↔
      (c = 'x' ∧ dec mcs.mc.b = ' ' ∧ (calcf mcs.cs (cstr mcs.token)).2 ≠ 0)) := by
  refine ⟨rfl, ?_⟩
  by_cases hc : c = 'x'
  · subst hc
    simp only [morsecalc_input_core, ne_eq, not_true_eq_false, if_false, ite_not]
    by_cases h0 : dec mcs.mc.b = '\x00'
    · simp [h0]
    · by_cases hsp : dec mcs.mc.b = ' '
      · simp [h0, hsp]
      · by_cases hpar : dec mcs.mc.b = '('
        · simp [h0, hsp, hpar]
        · by_cases hS : dec mcs.mc.b = 'S'
          · simp [h0, hsp, hpar, hS]
          · by_cases hroom : mcs.idxt < TOKEN_LEN - 1 <;>
              simp [h0, hsp, hpar, hS, hroom]
  · simp [morsecalc_input_core, hc]

end MorseCalc
